import Mathlib

/-!
Shallow embedding of django-vite's template-tag module
(`django_vite/templatetags/django_vite.py`): the manifest data model, URL
resolution, tag rendering, the recursive CSS dependency walker, and the
mode-dependent asset-resolution operations, together with proofs relating
them to their specification.
-/

set_option autoImplicit false

/-- One entry of the Vite manifest: the output `file`, the optional list of
`imports` (keys of the same manifest) and the optional list of `css` output
paths, exactly the three fields the module reads. -/
structure ManifestEntry where
  file : String
  imports : Option (List String) := none
  css : Option (List String) := none
  deriving DecidableEq

/-- The parsed manifest: an insertion-ordered mapping from entry path to
entry, as obtained from parsing the manifest JSON document. -/
abbrev Manifest := List (String × ManifestEntry)

/-- `charsHasPre p l` is true when `p` is a leading run of `l`. -/
def charsHasPre : List Char → List Char → Bool
  | [], _ => true
  | _ :: _, [] => false
  | a :: as, b :: bs => a == b && charsHasPre as bs

/-- `charsHasSub p l`: `p` occurs contiguously somewhere in `l`. -/
def charsHasSub (p : List Char) : List Char → Bool
  | [] => p.isEmpty
  | c :: rest => charsHasPre p (c :: rest) || charsHasSub p rest

/-- Python's substring test `sub in s`. -/
def strHasSub (s sub : String) : Bool :=
  charsHasSub sub.toList s.toList

def strStartsWith (s p : String) : Bool :=
  charsHasPre p.toList s.toList

def strEndsWith (s p : String) : Bool :=
  charsHasPre p.toList.reverse s.toList.reverse

/-- Split `l` at the first occurrence of `sep`: `some (a, b)` with
`l = a ++ sep ++ b`, or `none` when `sep` does not occur in `l`. -/
def charsSplitFirst (sep : List Char) : List Char → Option (List Char × List Char)
  | [] => if sep.isEmpty then some ([], []) else none
  | c :: rest =>
    if charsHasPre sep (c :: rest) then some ([], (c :: rest).drop sep.length)
    else
      match charsSplitFirst sep rest with
      | some (a, b) => some (c :: a, b)
      | none => none

/-- Parse `scheme://netloc` off the front of a URL: the origin (scheme plus
authority) and the remaining path, or `none` when the string carries no
`://`. This models the slice of `urllib.parse` that the module exercises,
where an authority is present exactly when the string contains `://`. -/
def splitSchemeNetloc (s : String) : Option (String × String) :=
  match charsSplitFirst "://".toList s.toList with
  | none => none
  | some (scheme, rest) =>
    let netloc := rest.takeWhile (fun c => c != '/')
    some (⟨scheme ++ "://".toList ++ netloc⟩, ⟨rest.drop netloc.length⟩)

/-- The base path up to and including its last slash (empty when there is no
slash): the merge step RFC 3986 prescribes for relative references. -/
def dirnameKeepSlash (s : String) : String :=
  ⟨(s.toList.reverse.dropWhile (fun c => c != '/')).reverse⟩

/-- Model of Python `urllib.parse.urljoin`, faithful on the URLs this module
builds: `url` free of query/fragment and dot segments, carrying an authority
exactly when it contains `://`. -/
def urljoin (base url : String) : String :=
  if url = "" then base
  else if (splitSchemeNetloc url).isSome then url
  else
    match splitSchemeNetloc base with
    | some (origin, bpath) =>
      if strStartsWith url "/" then origin ++ url
      else if bpath = "" then origin ++ "/" ++ url
      else origin ++ dirnameKeepSlash bpath ++ url
    | none =>
      if strStartsWith url "/" then url
      else dirnameKeepSlash base ++ url

/-- The configuration surface the module reads once at import time: the mode
flag, the dev-server origin parts, the computed `DJANGO_VITE_STATIC_URL`
(slash-terminated by the module), the static URL prefix, the polyfills motif
and the optional staticfiles storage collaborator (`staticfiles_storage.url`
when `django.contrib.staticfiles` is installed). The port is kept in its
f-string-rendered form. -/
structure ViteConfig where
  devMode : Bool
  devServerProtocol : String := "http"
  devServerHost : String := "localhost"
  devServerPort : String := "3000"
  staticUrl : String := "/static/"
  staticUrlPrefix : String := ""
  legacyPolyfillsMotif : String := "legacy-polyfills"
  staticfilesStorage : Option (String → String) := none

/-- The dev-server origin `{protocol}://{host}:{port}`. -/
def devOrigin (cfg : ViteConfig) : String :=
  cfg.devServerProtocol ++ "://" ++ cfg.devServerHost ++ ":" ++ cfg.devServerPort

/-- `DjangoViteAssetLoader._generate_vite_server_url`. -/
def generate_vite_server_url (cfg : ViteConfig) (path : String) : String :=
  urljoin (devOrigin cfg) (urljoin cfg.staticUrl path)

/-- `DjangoViteAssetLoader._generate_production_server_url`: join the
slash-terminated static URL prefix with the path, then route through the
staticfiles storage collaborator when it is installed. -/
def generate_production_server_url (cfg : ViteConfig) (path : String) : String :=
  let pfx := if strEndsWith cfg.staticUrlPrefix "/" then cfg.staticUrlPrefix
    else cfg.staticUrlPrefix ++ "/"
  let production_server_url := urljoin pfx path
  match cfg.staticfilesStorage with
  | some storage => storage production_server_url
  | none => production_server_url

/-- The attribute rendering shared by the script and preload tags:
`key="value"` pairs joined by single spaces, insertion order preserved. -/
def attrsString (attrs : List (String × String)) : String :=
  String.intercalate " " (attrs.map (fun kv => kv.1 ++ "=\"" ++ kv.2 ++ "\""))

/-- `DjangoViteAssetLoader._generate_script_tag`. -/
def generate_script_tag (src : String) (attrs : List (String × String)) : String :=
  "<script " ++ attrsString attrs ++ " src=\"" ++ src ++ "\"></script>"

/-- `DjangoViteAssetLoader._generate_stylesheet_tag`. -/
def generate_stylesheet_tag (href : String) : String :=
  "<link rel=\"stylesheet\" href=\"" ++ href ++ "\" />"

/-- `DjangoViteAssetLoader._generate_stylesheet_preload_tag`. -/
def generate_stylesheet_preload_tag (href : String) : String :=
  "<link rel=\"preload\" href=\"" ++ href ++ "\" as=\"style\" />"

/-- `DjangoViteAssetLoader._generate_preload_tag`. -/
def generate_preload_tag (href : String) (attrs : List (String × String)) : String :=
  "<link href=\"" ++ href ++ "\" " ++ attrsString attrs ++ " />"

/-- Python's `{**d1, **d2}` on string-keyed dicts whose own keys are
distinct: the keys of `d1` keep their position, with values overridden by
`d2` on collision; keys appearing only in `d2` follow, in `d2`'s order. -/
def dictMerge (d1 d2 : List (String × String)) : List (String × String) :=
  (d1.map (fun kv =>
    match List.lookup kv.1 d2 with
    | some v => (kv.1, v)
    | none => kv))
  ++ d2.filter (fun kv => (List.lookup kv.1 d1).isNone)

/-- Result of one CSS-walker call: `none` models non-termination (the fuel
ran out), `Except.error k` the `KeyError` a missing manifest key raises, and
`Except.ok (tags, already_processed)` the produced tags together with the
final contents of the shared `already_processed` list. -/
abbrev WalkResult := Option (Except String (List String × List String))

/-- The `for css_path in manifest_entry["css"]` loop: emit a tag for each
path not yet in `already_processed`, and append every path to that list. -/
def processCssList (cfg : ViteConfig) (tag_generator : String → String) :
    List String → List String → List String × List String
  | [], ap => ([], ap)
  | css_path :: rest, ap =>
    let r := processCssList cfg tag_generator rest (ap ++ [css_path])
    (if ap.contains css_path then r.1
     else tag_generator (generate_production_server_url cfg css_path) :: r.1, r.2)

/-- The `for import_path in manifest_entry["imports"]` loop, threading the
shared `already_processed` list through the recursive walker calls. -/
def genCssFold (f : String → List String → WalkResult) :
    List String → List String → WalkResult
  | [], ap => some (.ok ([], ap))
  | p :: rest, ap =>
    match f p ap with
    | none => none
    | some (.error k) => some (.error k)
    | some (.ok (tags1, ap1)) =>
      match genCssFold f rest ap1 with
      | none => none
      | some (.error k) => some (.error k)
      | some (.ok (tags2, ap2)) => some (.ok (tags1 ++ tags2, ap2))

/-- `DjangoViteAssetLoader._generate_css_files_of_asset`, with explicit fuel
standing in for the unbounded recursion depth: recurse into the
entry's imports first, then process the entry's own CSS list. -/
def generate_css_files_of_asset (m : Manifest) (cfg : ViteConfig)
    (tag_generator : String → String) :
    Nat → String → List String → WalkResult
  | 0, _, _ => none
  | fuel + 1, path, already_processed =>
    match List.lookup path m with
    | none => some (.error path)
    | some manifest_entry =>
      match genCssFold (fun p ap => generate_css_files_of_asset m cfg tag_generator fuel p ap)
          (manifest_entry.imports.getD []) already_processed with
      | none => none
      | some (.error k) => some (.error k)
      | some (.ok (tags, ap1)) =>
        let r := processCssList cfg tag_generator (manifest_entry.css.getD []) ap1
        some (.ok (tags ++ r.1, r.2))

/-- `DjangoViteAssetLoader._load_css_files_of_asset`. -/
def load_css_files_of_asset (m : Manifest) (cfg : ViteConfig)
    (fuel : Nat) (path : String) (ap : List String) : WalkResult :=
  generate_css_files_of_asset m cfg generate_stylesheet_tag fuel path ap

/-- `DjangoViteAssetLoader._preload_css_files_of_asset`. -/
def preload_css_files_of_asset (m : Manifest) (cfg : ViteConfig)
    (fuel : Nat) (path : String) (ap : List String) : WalkResult :=
  generate_css_files_of_asset m cfg generate_stylesheet_preload_tag fuel path ap

/-- The error taxonomy of the module: `ManifestUnreadable` from
`_parse_manifest`, `UnknownAsset` from the per-operation guard,
`PolyfillsNotFound` from `generate_vite_legacy_polyfills`, and the
`KeyError` a missing key raises during dependency expansion. -/
inductive ViteError where
  | manifestUnreadable (msg : String)
  | unknownAsset (path : String)
  | keyError (key : String)
  | polyfillsNotFound
  deriving DecidableEq

/-- The guard `if not self._manifest or path not in self._manifest: raise`
followed by `self._manifest[path]`: `none` means the guard raised. A falsy
`_manifest` (`None` or the empty dict) fails the guard for every path. -/
def guardLookup (mst : Option Manifest) (path : String) : Option ManifestEntry :=
  match mst with
  | none => none
  | some m => if m.isEmpty then none else List.lookup path m

/-- The modulepreload loop over `manifest_entry.get("imports", [])`:
each one is looked up (a missing key raises `KeyError`) and rendered with
`urljoin(DJANGO_VITE_STATIC_URL, dep_file)` — notably not through
`_generate_production_server_url`. -/
def preloadImports (m : Manifest) (cfg : ViteConfig) (attrs : List (String × String)) :
    List String → Except String (List String)
  | [] => .ok []
  | dep :: rest =>
    match List.lookup dep m with
    | none => .error dep
    | some dep_entry =>
      match preloadImports m cfg attrs rest with
      | .error k => .error k
      | .ok tags => .ok (generate_preload_tag (urljoin cfg.staticUrl dep_entry.file) attrs :: tags)

/-- `DjangoViteAssetLoader.generate_vite_asset`. `mst` is the loader's
`_manifest` field; the outer `Option` of the result is the CSS walker's
fuel (`none` = the walker recursion would not terminate). -/
def generate_vite_asset (cfg : ViteConfig) (mst : Option Manifest) (fuel : Nat)
    (path : String) (kwargs : List (String × String)) : Option (Except ViteError String) :=
  if cfg.devMode then
    some (.ok (generate_script_tag (generate_vite_server_url cfg path)
      (dictMerge [("type", "module")] kwargs)))
  else
    match guardLookup mst path with
    | none => some (.error (.unknownAsset path))
    | some manifest_entry =>
      let m := mst.getD []
      let scripts_attrs := dictMerge [("type", "module"), ("crossorigin", "")] kwargs
      match load_css_files_of_asset m cfg fuel path [] with
      | none => none
      | some (.error k) => some (.error (.keyError k))
      | some (.ok (cssTags, _)) =>
        let scriptTag := generate_script_tag
          (generate_production_server_url cfg manifest_entry.file) scripts_attrs
        let preload_attrs := [("type", "text/javascript"), ("crossorigin", "anonymous"),
          ("rel", "modulepreload"), ("as", "script")]
        match preloadImports m cfg preload_attrs (manifest_entry.imports.getD []) with
        | .error k => some (.error (.keyError k))
        | .ok preloadTags =>
          some (.ok (String.intercalate "\n" (cssTags ++ [scriptTag] ++ preloadTags)))

/-- The modulepreload attribute set `preload_vite_asset` uses for both the
entry itself and its imports. -/
def preloadScriptAttrs : List (String × String) :=
  [("type", "text/javascript"), ("crossorigin", "anonymous"),
   ("rel", "modulepreload"), ("as", "script")]

/-- `DjangoViteAssetLoader.preload_vite_asset`: the entry's own
modulepreload link, then the CSS preload links, then the imports'
modulepreload links. -/
def preload_vite_asset (cfg : ViteConfig) (mst : Option Manifest) (fuel : Nat)
    (path : String) : Option (Except ViteError String) :=
  if cfg.devMode then some (.ok "")
  else
    match guardLookup mst path with
    | none => some (.error (.unknownAsset path))
    | some manifest_entry =>
      let m := mst.getD []
      let selfTag := generate_preload_tag (urljoin cfg.staticUrl manifest_entry.file)
        preloadScriptAttrs
      match preload_css_files_of_asset m cfg fuel path [] with
      | none => none
      | some (.error k) => some (.error (.keyError k))
      | some (.ok (cssTags, _)) =>
        match preloadImports m cfg preloadScriptAttrs (manifest_entry.imports.getD []) with
        | .error k => some (.error (.keyError k))
        | .ok importTags =>
          some (.ok (String.intercalate "\n" ([selfTag] ++ cssTags ++ importTags)))

/-- `DjangoViteAssetLoader.generate_vite_asset_url`. -/
def generate_vite_asset_url (cfg : ViteConfig) (mst : Option Manifest)
    (path : String) : Except ViteError String :=
  if cfg.devMode then .ok (generate_vite_server_url cfg path)
  else
    match guardLookup mst path with
    | none => .error (.unknownAsset path)
    | some manifest_entry =>
      .ok (generate_production_server_url cfg manifest_entry.file)

/-- `DjangoViteAssetLoader.generate_vite_legacy_asset`. -/
def generate_vite_legacy_asset (cfg : ViteConfig) (mst : Option Manifest)
    (path : String) (kwargs : List (String × String)) : Except ViteError String :=
  if cfg.devMode then .ok ""
  else
    match guardLookup mst path with
    | none => .error (.unknownAsset path)
    | some manifest_entry =>
      .ok (generate_script_tag
        (generate_production_server_url cfg manifest_entry.file)
        (dictMerge [("nomodule", ""), ("crossorigin", "")] kwargs))

/-- `DjangoViteAssetLoader.generate_vite_legacy_polyfills`: scan the
manifest keys in order for the first one containing the motif. -/
def generate_vite_legacy_polyfills (cfg : ViteConfig) (mst : Option Manifest)
    (kwargs : List (String × String)) : Except ViteError String :=
  if cfg.devMode then .ok ""
  else
    let scripts_attrs := dictMerge [("nomodule", ""), ("crossorigin", "")] kwargs
    match (mst.getD []).find? (fun p => strHasSub p.1 cfg.legacyPolyfillsMotif) with
    | some p => .ok (generate_script_tag
        (generate_production_server_url cfg p.2.file) scripts_attrs)
    | none => .error .polyfillsNotFound

/-- The loader singleton's state: its `_manifest` field. -/
structure LoaderState where
  manifest : Option Manifest
  deriving DecidableEq

/-- `DjangoViteAssetLoader.instance` on first call: `_manifest` starts as
`None`, and `_parse_manifest` runs only outside dev mode. `parseResult`
stands for the outcome of reading and JSON-parsing the manifest file; in
dev mode it is never consulted. -/
def assetLoaderInstance (cfg : ViteConfig) (parseResult : Except String Manifest) :
    Except ViteError LoaderState :=
  if cfg.devMode then .ok ⟨none⟩
  else
    match parseResult with
    | .ok m => .ok ⟨some m⟩
    | .error e => .error (.manifestUnreadable e)

/-- Specification-side definition (from the spec's words, to be compared
with the walker): keep each path only at its first encounter, relative to
the `seen` accumulator. -/
def firstEncounters (seen : List String) : List String → List String
  | [] => []
  | p :: rest =>
    if seen.contains p then firstEncounters (seen ++ [p]) rest
    else p :: firstEncounters (seen ++ [p]) rest

/-- Specification-side definition: sequential composition of the
depth-first CSS collection over a list of sibling nodes. -/
def cssPreFold (f : String → Option (Except String (List String))) :
    List String → Option (Except String (List String))
  | [] => some (.ok [])
  | p :: rest =>
    match f p with
    | none => none
    | some (.error k) => some (.error k)
    | some (.ok l1) =>
      match cssPreFold f rest with
      | none => none
      | some (.error k) => some (.error k)
      | some (.ok l2) => some (.ok (l1 ++ l2))

/-- Specification-side definition (from the spec's words): the depth-first
pre-order CSS list of the entry's transitive import closure — imported
dependencies' CSS before the node's own CSS — with duplicates included. -/
def cssPreorder (m : Manifest) : Nat → String → Option (Except String (List String))
  | 0, _ => none
  | fuel + 1, path =>
    match List.lookup path m with
    | none => some (.error path)
    | some manifest_entry =>
      match cssPreFold (fun p => cssPreorder m fuel p) (manifest_entry.imports.getD []) with
      | none => none
      | some (.error k) => some (.error k)
      | some (.ok l) => some (.ok (l ++ manifest_entry.css.getD []))

/-- Specification-side definition: the `file` of each direct import, `none`
when one of them is missing from the manifest. -/
def importsFiles (m : Manifest) : List String → Option (List String)
  | [] => some []
  | dep :: rest =>
    match List.lookup dep m with
    | none => none
    | some manifest_entry =>
      match importsFiles m rest with
      | none => none
      | some fs => some (manifest_entry.file :: fs)

/-- A minimal cyclic manifest: entry `a` imports itself. -/
def cycManifest : Manifest := [("a", ⟨"a.js", some ["a"], none⟩)]

/-- The spec's worked CSS example: `parent` imports `A` and `B`; `A` has css
`a.css`; `B` has css `a.css` and `b.css`. -/
def exampleManifest : Manifest :=
  [("parent", ⟨"parent.js", some ["A", "B"], none⟩),
   ("A", ⟨"A.js", none, some ["a.css"]⟩),
   ("B", ⟨"B.js", none, some ["a.css", "b.css"]⟩)]

/-- A production-mode configuration with default settings. -/
def exampleCfg : ViteConfig := { devMode := false }

/-- A development-mode configuration with default settings. -/
def exampleDevCfg : ViteConfig := { devMode := true }

/-- A production-mode configuration whose staticfiles storage collaborator
rewrites URLs (a content-hashing storage). -/
def hashedCfg : ViteConfig :=
  { devMode := false, staticfilesStorage := some (fun s => "/hashed" ++ s) }

/-- A manifest with one direct JS import, for exercising the modulepreload
URL resolution. -/
def importManifest : Manifest :=
  [("parent", ⟨"assets/parent.js", some ["dep"], none⟩),
   ("dep", ⟨"assets/dep.js", none, none⟩)]

/-- A development-mode configuration whose static URL is the bare root
`/`, the only setting under which the dev URL is `{origin}/{path}`. -/
def rootCfg : ViteConfig := { devMode := true, staticUrl := "/" }

/-! ### Basic lookup lemmas -/

theorem lookup_mem {k : String} {e : ManifestEntry} {m : Manifest}
    (h : List.lookup k m = some e) : (k, e) ∈ m := by
  induction m with
  | nil => simp [List.lookup] at h
  | cons p rest ih =>
    obtain ⟨a, b⟩ := p
    by_cases hk : k = a
    · subst hk
      simp [List.lookup] at h
      exact h ▸ List.mem_cons_self _ _
    · rw [List.lookup, beq_false_of_ne hk] at h
      exact List.mem_cons_of_mem _ (ih h)

theorem isEmpty_false_of_lookup {k : String} {e : ManifestEntry} {m : Manifest}
    (h : List.lookup k m = some e) : m.isEmpty = false := by
  cases m with
  | nil => simp [List.lookup] at h
  | cons p rest => rfl

theorem lookup_append_some {α β : Type} [BEq α] {k : α} {v : β} {l1 l2 : List (α × β)}
    (h : List.lookup k l1 = some v) : List.lookup k (l1 ++ l2) = some v := by
  induction l1 with
  | nil => simp [List.lookup] at h
  | cons p rest ih =>
    obtain ⟨a, b⟩ := p
    rw [List.cons_append, List.lookup]
    rw [List.lookup] at h
    cases hk : k == a with
    | true => rw [hk] at h; exact h
    | false => rw [hk] at h; exact ih h

theorem lookup_append_none {α β : Type} [BEq α] {k : α} {l1 l2 : List (α × β)}
    (h : List.lookup k l1 = none) : List.lookup k (l1 ++ l2) = List.lookup k l2 := by
  induction l1 with
  | nil => simp
  | cons p rest ih =>
    obtain ⟨a, b⟩ := p
    rw [List.cons_append, List.lookup]
    rw [List.lookup] at h
    cases hk : k == a with
    | true => rw [hk] at h; exact absurd h (by simp)
    | false => rw [hk] at h; exact ih h

/-! ### Lookup behavior of `dictMerge` -/

theorem mapMerge_cons (a b : String) (d2 rest : List (String × String)) :
    ((a, b) :: rest).map (fun kv =>
      match List.lookup kv.1 d2 with
      | some v => (kv.1, v)
      | none => kv) =
    (match List.lookup a d2 with
      | some v => (a, v)
      | none => (a, b)) :: rest.map (fun kv =>
        match List.lookup kv.1 d2 with
        | some v => (kv.1, v)
        | none => kv) := rfl

theorem lookup_mapMerge_some {k w : String} {d1 d2 : List (String × String)}
    (h : List.lookup k d1 = some w) :
    List.lookup k (d1.map (fun kv =>
      match List.lookup kv.1 d2 with
      | some v => (kv.1, v)
      | none => kv)) = some ((List.lookup k d2).getD w) := by
  induction d1 with
  | nil => simp [List.lookup] at h
  | cons p rest ih =>
    obtain ⟨a, b⟩ := p
    rw [List.lookup] at h
    rw [mapMerge_cons]
    cases hk : k == a with
    | true =>
      rw [hk] at h
      injection h with h
      subst h
      have hka : k = a := eq_of_beq hk
      subst hka
      cases hd2 : List.lookup k d2 with
      | none => simp [List.lookup]
      | some v => simp [List.lookup]
    | false =>
      rw [hk] at h
      cases hd2 : List.lookup a d2 with
      | none => dsimp only; rw [List.lookup, hk]; exact ih h
      | some v => dsimp only; rw [List.lookup, hk]; exact ih h

theorem lookup_mapMerge_none {k : String} {d1 d2 : List (String × String)}
    (h : List.lookup k d1 = none) :
    List.lookup k (d1.map (fun kv =>
      match List.lookup kv.1 d2 with
      | some v => (kv.1, v)
      | none => kv)) = none := by
  induction d1 with
  | nil => simp
  | cons p rest ih =>
    obtain ⟨a, b⟩ := p
    rw [List.lookup] at h
    rw [mapMerge_cons]
    cases hk : k == a with
    | true => rw [hk] at h; exact absurd h (by simp)
    | false =>
      rw [hk] at h
      cases hd2 : List.lookup a d2 with
      | none => dsimp only; rw [List.lookup, hk]; exact ih h
      | some v => dsimp only; rw [List.lookup, hk]; exact ih h

theorem lookup_filter_keep {α β : Type} [BEq α] [LawfulBEq α] {k : α}
    {p : α × β → Bool} {l : List (α × β)} (hp : ∀ v, p (k, v) = true) :
    List.lookup k (l.filter p) = List.lookup k l := by
  induction l with
  | nil => simp
  | cons q rest ih =>
    obtain ⟨a, b⟩ := q
    by_cases hk : k = a
    · subst hk
      simp [List.filter_cons, hp b, List.lookup]
    · cases hq : p (a, b) with
      | true => simp [List.filter_cons, hq, List.lookup, beq_false_of_ne hk, ih]
      | false => simp [List.filter_cons, hq, List.lookup, beq_false_of_ne hk, ih]

/-- Caller-supplied attributes win on key collision: a key bound in the
second dict keeps its second-dict value through `{**d1, **d2}`. -/
theorem dictMerge_lookup_right {k v : String} {d1 d2 : List (String × String)}
    (h : List.lookup k d2 = some v) :
    List.lookup k (dictMerge d1 d2) = some v := by
  rw [dictMerge]
  cases hd1 : List.lookup k d1 with
  | some w =>
    have := @lookup_mapMerge_some k w d1 d2 hd1
    rw [h] at this
    exact lookup_append_some this
  | none =>
    rw [lookup_append_none (lookup_mapMerge_none hd1)]
    rw [lookup_filter_keep (fun v => by rw [hd1]; rfl)]
    exact h

/-! ### The CSS walker refines the specification's first-encounter dedup -/

theorem firstEncounters_append (seen l1 l2 : List String) :
    firstEncounters seen (l1 ++ l2) =
      firstEncounters seen l1 ++ firstEncounters (seen ++ l1) l2 := by
  induction l1 generalizing seen with
  | nil => simp [firstEncounters]
  | cons p rest ih =>
    rw [List.cons_append, firstEncounters, firstEncounters]
    by_cases hc : seen.contains p
    · rw [if_pos hc, if_pos hc, ih, List.append_assoc, List.singleton_append]
    · rw [if_neg hc, if_neg hc, ih, List.cons_append, List.append_assoc,
        List.singleton_append]

theorem processCssList_eq (cfg : ViteConfig) (tg : String → String)
    (css ap : List String) :
    processCssList cfg tg css ap =
      ((firstEncounters ap css).map (fun p => tg (generate_production_server_url cfg p)),
        ap ++ css) := by
  induction css generalizing ap with
  | nil => simp [processCssList, firstEncounters]
  | cons c rest ih =>
    rw [processCssList, ih, firstEncounters]
    by_cases hc : ap.contains c
    · rw [if_pos hc, if_pos hc]
      dsimp only
      rw [List.append_assoc, List.singleton_append]
    · rw [if_neg hc, if_neg hc]
      dsimp only
      rw [List.map_cons, List.append_assoc, List.singleton_append]

theorem genCssFold_refines (f : String → Option (Except String (List String)))
    (g : String → List String → WalkResult) (tagF : String → String)
    (hfg : ∀ p l ap, f p = some (.ok l) →
      g p ap = some (.ok ((firstEncounters ap l).map tagF, ap ++ l))) :
    ∀ paths ap l, cssPreFold f paths = some (.ok l) →
      genCssFold g paths ap = some (.ok ((firstEncounters ap l).map tagF, ap ++ l)) := by
  intro paths
  induction paths with
  | nil =>
    intro ap l h
    rw [cssPreFold] at h
    injection h with h
    injection h with h
    subst h
    simp [genCssFold, firstEncounters]
  | cons p rest ih =>
    intro ap l h
    rw [cssPreFold] at h
    cases hf : f p with
    | none => rw [hf] at h; exact absurd h (by simp)
    | some r1 =>
      cases r1 with
      | error k => rw [hf] at h; exact absurd h (by simp)
      | ok l1 =>
        rw [hf] at h
        cases hrest : cssPreFold f rest with
        | none => rw [hrest] at h; exact absurd h (by simp)
        | some r2 =>
          cases r2 with
          | error k => rw [hrest] at h; exact absurd h (by simp)
          | ok l2 =>
            rw [hrest] at h
            injection h with h
            injection h with h
            subst h
            simp only [genCssFold, hfg p l1 ap hf, ih (ap ++ l1) l2 hrest]
            rw [firstEncounters_append, List.map_append, List.append_assoc]

theorem genCss_refines (m : Manifest) (cfg : ViteConfig) (tg : String → String) :
    ∀ fuel path l ap, cssPreorder m fuel path = some (.ok l) →
      generate_css_files_of_asset m cfg tg fuel path ap =
        some (.ok ((firstEncounters ap l).map
          (fun p => tg (generate_production_server_url cfg p)), ap ++ l)) := by
  intro fuel
  induction fuel with
  | zero => intro path l ap h; exact absurd h (by simp [cssPreorder])
  | succ fuel ih =>
    intro path l ap h
    rw [cssPreorder] at h
    cases he : List.lookup path m with
    | none => rw [he] at h; exact absurd h (by simp)
    | some e =>
      simp only [he] at h
      cases hfold : cssPreFold (fun p => cssPreorder m fuel p) (e.imports.getD []) with
      | none => rw [hfold] at h; exact absurd h (by simp)
      | some r =>
        cases r with
        | error k => rw [hfold] at h; exact absurd h (by simp)
        | ok lf =>
          rw [hfold] at h
          injection h with h
          injection h with h
          subst h
          simp only [generate_css_files_of_asset, he,
            genCssFold_refines (fun p => cssPreorder m fuel p) _ _
              (fun p l ap hp => ih p l ap hp) _ ap lf hfold,
            processCssList_eq]
          rw [firstEncounters_append, List.map_append, List.append_assoc]

/-! ### Termination of the walker on ranked (acyclic) manifests -/

theorem genCssFold_total (g : String → List String → WalkResult) (good : String → Prop)
    (hg : ∀ p ap, good p → ∃ r, g p ap = some (.ok r)) :
    ∀ paths ap, (∀ q ∈ paths, good q) → ∃ r, genCssFold g paths ap = some (.ok r) := by
  intro paths
  induction paths with
  | nil => intro ap _; exact ⟨([], ap), rfl⟩
  | cons p rest ih =>
    intro ap h
    obtain ⟨⟨t1, ap1⟩, h1⟩ := hg p ap (h p (List.mem_cons_self _ _))
    obtain ⟨⟨t2, ap2⟩, h2⟩ := ih ap1 (fun q hq => h q (List.mem_cons_of_mem _ hq))
    exact ⟨(t1 ++ t2, ap2), by simp only [genCssFold, h1, h2]⟩

theorem genCss_total (m : Manifest) (cfg : ViteConfig) (tg : String → String)
    (rank : String → Nat)
    (hm : ∀ p ∈ m, ∀ i ∈ p.2.imports.getD [],
      (List.lookup i m).isSome ∧ rank i < rank p.1) :
    ∀ fuel path ap, (List.lookup path m).isSome → rank path < fuel →
      ∃ r, generate_css_files_of_asset m cfg tg fuel path ap = some (.ok r) := by
  intro fuel
  induction fuel with
  | zero => intro path ap _ hlt; exact absurd hlt (Nat.not_lt_zero _)
  | succ fuel ih =>
    intro path ap hsome hlt
    obtain ⟨e, he⟩ := Option.isSome_iff_exists.mp hsome
    have himp := hm _ (lookup_mem he)
    obtain ⟨⟨tags, ap1⟩, hfold⟩ :=
      genCssFold_total _ (fun q => (List.lookup q m).isSome ∧ rank q < fuel)
        (fun p ap hp => ih p ap hp.1 hp.2) (e.imports.getD []) ap
        (fun q hq => ⟨(himp q hq).1,
          Nat.lt_of_lt_of_le (himp q hq).2 (Nat.lt_succ_iff.mp hlt)⟩)
    refine ⟨(tags ++ (processCssList cfg tg (e.css.getD []) ap1).1,
      (processCssList cfg tg (e.css.getD []) ap1).2), ?_⟩
    simp only [generate_css_files_of_asset, he, hfold]

/-- On the cyclic manifest no amount of fuel lets the walker finish: the
strict model of `_generate_css_files_of_asset` diverges. -/
theorem genCss_cyc (cfg : ViteConfig) (tg : String → String) :
    ∀ fuel ap, generate_css_files_of_asset cycManifest cfg tg fuel "a" ap = none := by
  intro fuel
  induction fuel with
  | zero => intro ap; rfl
  | succ fuel ih =>
    intro ap
    have hl : List.lookup "a" cycManifest = some ⟨"a.js", some ["a"], none⟩ := rfl
    simp only [generate_css_files_of_asset, hl, Option.getD_some, genCssFold, ih ap]

/-! ### `preloadImports` in terms of the imports' files -/

theorem preloadImports_eq (m : Manifest) (cfg : ViteConfig)
    (attrs : List (String × String)) :
    ∀ deps files, importsFiles m deps = some files →
      preloadImports m cfg attrs deps =
        .ok (files.map (fun f => generate_preload_tag (urljoin cfg.staticUrl f) attrs)) := by
  intro deps
  induction deps with
  | nil =>
    intro files h
    rw [importsFiles] at h
    injection h with h
    subst h
    rfl
  | cons dep rest ih =>
    intro files h
    rw [importsFiles] at h
    cases he : List.lookup dep m with
    | none => rw [he] at h; exact absurd h (by simp)
    | some e =>
      rw [he] at h
      cases hrest : importsFiles m rest with
      | none => rw [hrest] at h; exact absurd h (by simp)
      | some fs =>
        rw [hrest] at h
        injection h with h
        subst h
        rw [preloadImports, he, ih fs hrest, List.map_cons]

/-! ### Polyfills scan -/

theorem find?_of_filter_singleton {p : String × ManifestEntry → Bool}
    {m : Manifest} {x : String × ManifestEntry} (h : m.filter p = [x]) :
    m.find? p = some x := by
  induction m with
  | nil => simp at h
  | cons a rest ih =>
    cases hp : p a with
    | true =>
      simp [List.filter_cons, hp] at h
      obtain ⟨h1, h2⟩ := h
      subst h1
      exact List.find?_cons_of_pos rest hp
    | false =>
      simp only [List.filter_cons, hp] at h
      rw [List.find?_cons_of_neg rest (by simp [hp])]
      exact ih (by simpa using h)

/-! ### Character-list and URL-joining lemmas for the dev-server URL -/

theorem strToList_append (a b : String) : (a ++ b).toList = a.toList ++ b.toList := by
  cases a
  cases b
  rfl

theorem strAppend_assoc (a b c : String) : a ++ b ++ c = a ++ (b ++ c) := by
  cases a with
  | mk la =>
    cases b with
    | mk lb =>
      cases c with
      | mk lc =>
        show String.mk (la ++ lb ++ lc) = String.mk (la ++ (lb ++ lc))
        rw [List.append_assoc]

theorem charsHasPre_self_append (s t : List Char) : charsHasPre s (s ++ t) = true := by
  induction s with
  | nil => rfl
  | cons c rest ih => simp [charsHasPre, ih]

theorem charsHasPre_cons_false {s1 c : Char} {s l : List Char} (h : s1 ≠ c) :
    charsHasPre (s1 :: s) (c :: l) = false := by
  simp [charsHasPre, beq_false_of_ne h]

theorem charsHasPre_single {c : Char} {l : List Char}
    (h : charsHasPre (c :: []) l = true) : ∃ t, l = c :: t := by
  cases l with
  | nil => simp [charsHasPre] at h
  | cons b t =>
    simp [charsHasPre] at h
    exact ⟨t, by rw [h]⟩

theorem charsSplitFirst_at (a tail : List Char) (ha : ':' ∉ a) :
    charsSplitFirst (':' :: '/' :: '/' :: []) (a ++ ':' :: '/' :: '/' :: tail) =
      some (a, tail) := by
  induction a with
  | nil =>
    rw [List.nil_append, charsSplitFirst,
      if_pos (show charsHasPre (':' :: '/' :: '/' :: [])
        (':' :: '/' :: '/' :: tail) = true from charsHasPre_self_append _ tail)]
    simp [List.drop]
  | cons c a ih =>
    have hc : ':' ≠ c := fun h => ha (h ▸ List.mem_cons_self c a)
    rw [List.cons_append, charsSplitFirst, if_neg (by simp [charsHasPre_cons_false hc]),
      ih (fun h => ha (List.mem_cons_of_mem c h))]

theorem charsSplitFirst_none {l : List Char} (h : ':' ∉ l) :
    charsSplitFirst (':' :: '/' :: '/' :: []) l = none := by
  induction l with
  | nil => rfl
  | cons c rest ih =>
    have hc : ':' ≠ c := fun he => h (he ▸ List.mem_cons_self c rest)
    rw [charsSplitFirst, if_neg (by simp [charsHasPre_cons_false hc]),
      ih (fun he => h (List.mem_cons_of_mem c he))]

theorem splitSchemeNetloc_none {s : String} (h : ':' ∉ s.toList) :
    splitSchemeNetloc s = none := by
  have hc : charsSplitFirst "://".toList s.toList = none := charsSplitFirst_none h
  simp only [splitSchemeNetloc, hc]

theorem takeWhile_all {p : Char → Bool} {l : List Char} (h : ∀ x ∈ l, p x = true) :
    l.takeWhile p = l := by
  induction l with
  | nil => rfl
  | cons c rest ih =>
    simp [List.takeWhile_cons, h c (List.mem_cons_self _ _),
      ih (fun x hx => h x (List.mem_cons_of_mem _ hx))]

theorem dropWhile_decomp (p : Char → Bool) (l : List Char) :
    ∃ pre, pre ++ l.dropWhile p = l := by
  induction l with
  | nil => exact ⟨[], rfl⟩
  | cons c rest ih =>
    cases hp : p c with
    | true =>
      obtain ⟨pre, hpre⟩ := ih
      exact ⟨c :: pre, by simp [List.dropWhile_cons, hp, hpre]⟩
    | false => exact ⟨[], by simp [List.dropWhile_cons, hp]⟩

theorem dropWhile_ne_nil {p : Char → Bool} {l : List Char} {a : Char}
    (ha : a ∈ l) (hpa : p a = false) : l.dropWhile p ≠ [] := by
  induction l with
  | nil => cases ha
  | cons c rest ih =>
    rw [List.dropWhile_cons]
    cases hp : p c with
    | true =>
      have ha2 : a ∈ rest := by
        cases List.mem_cons.mp ha with
        | inl he => exact absurd (he ▸ hpa) (by simp [he, hp])
        | inr he => exact he
      simpa using ih ha2
    | false => simp

theorem dirname_mem {s : String} {x : Char}
    (h : x ∈ (dirnameKeepSlash s).toList) : x ∈ s.toList := by
  have e : (dirnameKeepSlash s).toList
      = (s.toList.reverse.dropWhile (fun c => c != '/')).reverse := rfl
  rw [e, List.mem_reverse] at h
  obtain ⟨pre, hpre⟩ := dropWhile_decomp (fun c => c != '/') s.toList.reverse
  have hm : x ∈ s.toList.reverse := by
    rw [← hpre]
    exact List.mem_append_right pre h
  rwa [List.mem_reverse] at hm

theorem dirname_head {s : String} {t : List Char} (h : s.toList = '/' :: t) :
    ∃ u, (dirnameKeepSlash s).toList = '/' :: u := by
  have e : (dirnameKeepSlash s).toList
      = (s.toList.reverse.dropWhile (fun c => c != '/')).reverse := rfl
  have hmem : '/' ∈ s.toList.reverse := by
    rw [List.mem_reverse, h]
    exact List.mem_cons_self _ _
  have hne : s.toList.reverse.dropWhile (fun c => c != '/') ≠ [] :=
    dropWhile_ne_nil hmem (by simp)
  obtain ⟨pre, hpre⟩ := dropWhile_decomp (fun c => c != '/') s.toList.reverse
  have hsplit : (s.toList.reverse.dropWhile (fun c => c != '/')).reverse ++ pre.reverse
      = s.toList := by
    have h2 := congrArg List.reverse hpre
    rwa [List.reverse_append, List.reverse_reverse] at h2
  cases hrev : (s.toList.reverse.dropWhile (fun c => c != '/')).reverse with
  | nil =>
    exact absurd (by simpa using congrArg List.reverse hrev) hne
  | cons c u =>
    refine ⟨u, ?_⟩
    rw [e, hrev]
    rw [hrev, h, List.cons_append] at hsplit
    injection hsplit with h1 _
    rw [h1]

theorem strStartsWith_cons {s : String} {t : List Char} (h : s.toList = '/' :: t) :
    strStartsWith s "/" = true := by
  have e : strStartsWith s "/" = charsHasPre ('/' :: []) s.toList := rfl
  rw [e, h]
  simp [charsHasPre]

/-- The dev-server origin parses as scheme plus authority with an empty
path, provided the protocol carries no colon and the host/port no slash. -/
theorem splitSchemeNetloc_devOrigin (cfg : ViteConfig)
    (hp : ':' ∉ cfg.devServerProtocol.toList)
    (hn : '/' ∉ cfg.devServerHost.toList ++ ':' :: cfg.devServerPort.toList) :
    splitSchemeNetloc (devOrigin cfg) = some (devOrigin cfg, "") := by
  have hsep : "://".toList = ':' :: '/' :: '/' :: [] := rfl
  have hcolon : ":".toList = ':' :: [] := rfl
  have hdata : (devOrigin cfg).toList
      = cfg.devServerProtocol.toList ++ ':' :: '/' :: '/' ::
          (cfg.devServerHost.toList ++ ':' :: cfg.devServerPort.toList) := by
    rw [devOrigin, strToList_append, strToList_append, strToList_append,
      strToList_append, hsep, hcolon]
    simp [List.append_assoc]
  have hsplit : charsSplitFirst "://".toList (devOrigin cfg).toList
      = some (cfg.devServerProtocol.toList,
          cfg.devServerHost.toList ++ ':' :: cfg.devServerPort.toList) := by
    rw [hdata]
    exact charsSplitFirst_at _ _ hp
  have htake : (cfg.devServerHost.toList ++ ':' :: cfg.devServerPort.toList).takeWhile
      (fun c => c != '/') = cfg.devServerHost.toList ++ ':' :: cfg.devServerPort.toList :=
    takeWhile_all (fun x hx => by
      have hxe : x ≠ '/' := fun hxe => hn (hxe ▸ hx)
      simp [hxe])
  have hmk : String.mk (cfg.devServerProtocol.toList ++ "://".toList ++
      (cfg.devServerHost.toList ++ ':' :: cfg.devServerPort.toList)) = devOrigin cfg := by
    show String.mk _ = String.mk ((devOrigin cfg).toList)
    rw [hdata, hsep, List.append_assoc]
    rfl
  simp only [splitSchemeNetloc, hsplit, htake, List.drop_length, hmk]

theorem urljoin_origin_abs {base url : String}
    (hb : splitSchemeNetloc base = some (base, ""))
    (hu : splitSchemeNetloc url = none)
    (hs : strStartsWith url "/" = true) (hne : url ≠ "") :
    urljoin base url = base ++ url := by
  simp only [urljoin, if_neg hne, hu, Option.isSome_none, Bool.false_eq_true, if_false,
    hb, if_pos hs]

theorem urljoin_rel_noscheme {base url : String}
    (hb : splitSchemeNetloc base = none) (hu : splitSchemeNetloc url = none)
    (hne : url ≠ "") (hs : strStartsWith url "/" = false) :
    urljoin base url = dirnameKeepSlash base ++ url := by
  simp only [urljoin, if_neg hne, hu, Option.isSome_none, Bool.false_eq_true, if_false,
    hb, hs]

theorem urljoin_abs_noscheme {base url : String}
    (hb : splitSchemeNetloc base = none) (hu : splitSchemeNetloc url = none)
    (hne : url ≠ "") (hs : strStartsWith url "/" = true) :
    urljoin base url = url := by
  simp only [urljoin, if_neg hne, hu, Option.isSome_none, Bool.false_eq_true, if_false,
    hb, if_pos hs]

/-- Joining the static URL (a root-relative path) with a colon-free asset
path yields a nonempty root-relative, colon-free path. -/
theorem innerJoin_props (su path : String) (t0 : List Char)
    (hsu : su.toList = '/' :: t0) (hc1 : ':' ∉ su.toList) (hc2 : ':' ∉ path.toList) :
    (∃ t, (urljoin su path).toList = '/' :: t) ∧ ':' ∉ (urljoin su path).toList := by
  by_cases hne : path = ""
  · subst hne
    rw [(rfl : urljoin su "" = su)]
    exact ⟨⟨t0, hsu⟩, hc1⟩
  · have hu : splitSchemeNetloc path = none := splitSchemeNetloc_none hc2
    have hb : splitSchemeNetloc su = none := splitSchemeNetloc_none hc1
    cases hs : strStartsWith path "/" with
    | true =>
      rw [urljoin_abs_noscheme hb hu hne hs]
      obtain ⟨t, ht⟩ := charsHasPre_single hs
      exact ⟨⟨t, ht⟩, hc2⟩
    | false =>
      rw [urljoin_rel_noscheme hb hu hne hs]
      have e : (dirnameKeepSlash su ++ path).toList
          = (dirnameKeepSlash su).toList ++ path.toList := strToList_append _ _
      obtain ⟨u, hu2⟩ := dirname_head hsu
      constructor
      · exact ⟨u ++ path.toList, by rw [e, hu2, List.cons_append]⟩
      · rw [e]
        intro hmem
        cases List.mem_append.mp hmem with
        | inl hin => exact hc1 (dirname_mem hin)
        | inr hin => exact hc2 hin

/-! ### Claim theorems -/

/-- **C1**: for a manifest whose traversal succeeds (acyclic, all traversed
keys present — witnessed by the spec-side depth-first pre-order collection
returning a value), `_generate_css_files_of_asset` started with an empty
`already_processed` list returns exactly one tag per unique CSS path of the
entry's transitive import closure, in depth-first pre-order (dependencies'
CSS before the node's own CSS), each unique path at the position of its
first encounter. -/
theorem C1_css_collection (m : Manifest) (cfg : ViteConfig) (tg : String → String)
    (fuel : Nat) (path : String) (closure : List String)
    (hclo : cssPreorder m fuel path = some (.ok closure)) :
    generate_css_files_of_asset m cfg tg fuel path [] =
      some (.ok ((firstEncounters [] closure).map
        (fun p => tg (generate_production_server_url cfg p)), closure)) := by
  have h := genCss_refines m cfg tg fuel path closure [] hclo
  rw [List.nil_append] at h
  exact h

/-- Witness for C1 at the spec's own example: the pre-order CSS list is
`[a.css, a.css, b.css]` and the emitted tags are `[a.css, b.css]` (rendered
through the production URL), `a.css` once at its first encounter. -/
theorem C1_witness :
    cssPreorder exampleManifest 2 "parent" = some (.ok ["a.css", "a.css", "b.css"])
    ∧ generate_css_files_of_asset exampleManifest exampleCfg (fun s => s) 2 "parent" [] =
        some (.ok (["/a.css", "/b.css"], ["a.css", "a.css", "b.css"])) := by
  constructor
  · rfl
  · exact (C1_css_collection exampleManifest exampleCfg (fun s => s) 2 "parent"
      ["a.css", "a.css", "b.css"] rfl).trans rfl

/-- **C2**: in production mode, for an entry present in the manifest whose
traversal succeeds, `generate_vite_asset` returns exactly the concatenation
(joined by newlines) of: one stylesheet link per unique CSS path of the
transitive import closure (first-encounter order), then exactly one script
tag whose src is the resolved production URL of the entry's `file`, then
one modulepreload link per direct import — in that fixed order. -/
theorem C2_production_asset (cfg : ViteConfig) (m : Manifest) (fuel : Nat)
    (path : String) (kwargs : List (String × String)) (e : ManifestEntry)
    (closure files : List String)
    (hdev : cfg.devMode = false)
    (he : List.lookup path m = some e)
    (hclo : cssPreorder m fuel path = some (.ok closure))
    (hfiles : importsFiles m (e.imports.getD []) = some files) :
    generate_vite_asset cfg (some m) fuel path kwargs =
      some (.ok (String.intercalate "\n"
        ((firstEncounters [] closure).map
            (fun p => generate_stylesheet_tag (generate_production_server_url cfg p))
          ++ [generate_script_tag (generate_production_server_url cfg e.file)
              (dictMerge [("type", "module"), ("crossorigin", "")] kwargs)]
          ++ files.map (fun f => generate_preload_tag (urljoin cfg.staticUrl f)
              [("type", "text/javascript"), ("crossorigin", "anonymous"),
               ("rel", "modulepreload"), ("as", "script")])))) := by
  have hg : guardLookup (some m) path = some e := by
    rw [guardLookup, if_neg (by simp [isEmpty_false_of_lookup he])]
    exact he
  have hcss := genCss_refines m cfg generate_stylesheet_tag fuel path closure [] hclo
  rw [List.nil_append] at hcss
  have hpre := preloadImports_eq m cfg
    [("type", "text/javascript"), ("crossorigin", "anonymous"),
     ("rel", "modulepreload"), ("as", "script")] (e.imports.getD []) files hfiles
  simp only [generate_vite_asset, hdev, Bool.false_eq_true, if_false, hg,
    Option.getD_some, load_css_files_of_asset, hcss, hpre]

set_option maxRecDepth 8192 in
/-- Witness for C2 at the example manifest: the full rendered output, CSS
links first, then the single script tag, then the two modulepreload links. -/
theorem C2_witness :
    generate_vite_asset exampleCfg (some exampleManifest) 2 "parent" [] =
      some (.ok ("<link rel=\"stylesheet\" href=\"/a.css\" />\n<link rel=\"stylesheet\" href=\"/b.css\" />\n<script type=\"module\" crossorigin=\"\" src=\"/parent.js\"></script>\n<link href=\"/static/A.js\" type=\"text/javascript\" crossorigin=\"anonymous\" rel=\"modulepreload\" as=\"script\" />\n<link href=\"/static/B.js\" type=\"text/javascript\" crossorigin=\"anonymous\" rel=\"modulepreload\" as=\"script\" />")) := by
  exact (C2_production_asset exampleCfg exampleManifest 2 "parent" []
    ⟨"parent.js", some ["A", "B"], none⟩ ["a.css", "a.css", "b.css"]
    ["A.js", "B.js"] rfl rfl rfl rfl).trans rfl

/-- **C3**: every production-mode path-taking operation fails with
`UnknownAsset` (and emits no markup) on a path absent from a successfully
loaded manifest. -/
theorem C3_unknown_asset (cfg : ViteConfig) (m : Manifest) (fuel : Nat)
    (path : String) (kwargs : List (String × String))
    (hdev : cfg.devMode = false) (habs : List.lookup path m = none) :
    generate_vite_asset cfg (some m) fuel path kwargs = some (.error (.unknownAsset path))
    ∧ preload_vite_asset cfg (some m) fuel path = some (.error (.unknownAsset path))
    ∧ generate_vite_asset_url cfg (some m) path = .error (.unknownAsset path)
    ∧ generate_vite_legacy_asset cfg (some m) path kwargs = .error (.unknownAsset path) := by
  have hg : guardLookup (some m) path = none := by
    rw [guardLookup]
    by_cases hm : m.isEmpty
    · rw [if_pos hm]
    · rw [if_neg hm]
      exact habs
  refine ⟨?_, ?_, ?_, ?_⟩
  · simp only [generate_vite_asset, hdev, Bool.false_eq_true, if_false, hg]
  · simp only [preload_vite_asset, hdev, Bool.false_eq_true, if_false, hg]
  · simp only [generate_vite_asset_url, hdev, Bool.false_eq_true, if_false, hg]
  · simp only [generate_vite_legacy_asset, hdev, Bool.false_eq_true, if_false, hg]

/-- Witness for C3: a path not built into the example manifest fails with
`UnknownAsset` in all four operations. -/
theorem C3_witness :
    generate_vite_asset exampleCfg (some exampleManifest) 1 "missing.js" [] =
      some (.error (.unknownAsset "missing.js"))
    ∧ preload_vite_asset exampleCfg (some exampleManifest) 1 "missing.js" =
      some (.error (.unknownAsset "missing.js"))
    ∧ generate_vite_asset_url exampleCfg (some exampleManifest) "missing.js" =
      .error (.unknownAsset "missing.js")
    ∧ generate_vite_legacy_asset exampleCfg (some exampleManifest) "missing.js" [] =
      .error (.unknownAsset "missing.js") :=
  C3_unknown_asset exampleCfg exampleManifest 1 "missing.js" [] rfl rfl

/-- **C4**: in development mode `instance()` never parses the manifest file
(its result ignores the parse outcome and stores `None`), and every
operation succeeds with a manifest-independent result — no manifest-related
error can arise. -/
theorem C4_dev_mode (cfg : ViteConfig) (pr : Except String Manifest)
    (mst mst2 : Option Manifest) (fuel fuel2 : Nat) (path : String)
    (kwargs : List (String × String)) (hdev : cfg.devMode = true) :
    assetLoaderInstance cfg pr = .ok ⟨none⟩
    ∧ generate_vite_asset cfg mst fuel path kwargs =
        some (.ok (generate_script_tag (generate_vite_server_url cfg path)
          (dictMerge [("type", "module")] kwargs)))
    ∧ generate_vite_asset cfg mst fuel path kwargs =
        generate_vite_asset cfg mst2 fuel2 path kwargs
    ∧ preload_vite_asset cfg mst fuel path = some (.ok "")
    ∧ generate_vite_asset_url cfg mst path = .ok (generate_vite_server_url cfg path)
    ∧ generate_vite_legacy_asset cfg mst path kwargs = .ok ""
    ∧ generate_vite_legacy_polyfills cfg mst kwargs = .ok "" := by
  refine ⟨?_, ?_, ?_, ?_, ?_, ?_, ?_⟩ <;>
    simp only [assetLoaderInstance, generate_vite_asset, preload_vite_asset,
      generate_vite_asset_url, generate_vite_legacy_asset,
      generate_vite_legacy_polyfills, hdev, eq_self_iff_true, if_true]

/-- Witness for C4: with a failing manifest parse and two unrelated
manifest states, all dev-mode results agree and succeed. -/
theorem C4_witness :
    assetLoaderInstance exampleDevCfg (.error "unreadable") = .ok ⟨none⟩
    ∧ generate_vite_asset exampleDevCfg none 0 "src/main.js" [] =
        some (.ok (generate_script_tag (generate_vite_server_url exampleDevCfg "src/main.js")
          (dictMerge [("type", "module")] [])))
    ∧ generate_vite_asset exampleDevCfg none 0 "src/main.js" [] =
        generate_vite_asset exampleDevCfg (some exampleManifest) 7 "src/main.js" []
    ∧ preload_vite_asset exampleDevCfg none 0 "src/main.js" = some (.ok "")
    ∧ generate_vite_asset_url exampleDevCfg none "src/main.js" =
        .ok (generate_vite_server_url exampleDevCfg "src/main.js")
    ∧ generate_vite_legacy_asset exampleDevCfg none "src/main.js" [] = .ok ""
    ∧ generate_vite_legacy_polyfills exampleDevCfg none [] = .ok "" :=
  C4_dev_mode exampleDevCfg (.error "unreadable") none (some exampleManifest)
    0 7 "src/main.js" [] rfl

/-- **C5 counterexample**: with a staticfiles storage installed, the entry's
own script URL is routed through it (`/hashed/assets/parent.js`) but the
direct import's modulepreload href is the plain
`urljoin(DJANGO_VITE_STATIC_URL, dep_file)` (`/static/assets/dep.js`),
which differs from the resolved production URL the claim requires. -/
theorem C5_counterexample :
    generate_vite_asset hashedCfg (some importManifest) 2 "parent" [] =
      some (.ok ("<script type=\"module\" crossorigin=\"\" src=\"/hashed/assets/parent.js\"></script>\n<link href=\"/static/assets/dep.js\" type=\"text/javascript\" crossorigin=\"anonymous\" rel=\"modulepreload\" as=\"script\" />"))
    ∧ urljoin hashedCfg.staticUrl "assets/dep.js" ≠
        generate_production_server_url hashedCfg "assets/dep.js" := by
  refine ⟨rfl, ?_⟩
  intro h
  exact absurd h (by decide)

/-- **C5 amended**: in production mode the entry's script URL (and the CSS
hrefs, produced by the walker) go through `_generate_production_server_url`
— hence through the staticfiles collaborator when available — but each
direct import's modulepreload href is `urljoin(DJANGO_VITE_STATIC_URL,
dep_file)`, bypassing the collaborator. -/
theorem C5_amended (cfg : ViteConfig) (m : Manifest) (fuel : Nat)
    (path : String) (kwargs : List (String × String)) (e : ManifestEntry)
    (files cssTags apFinal : List String)
    (hdev : cfg.devMode = false)
    (hg : guardLookup (some m) path = some e)
    (hcss : load_css_files_of_asset m cfg fuel path [] = some (.ok (cssTags, apFinal)))
    (hfiles : importsFiles m (e.imports.getD []) = some files) :
    generate_vite_asset cfg (some m) fuel path kwargs =
      some (.ok (String.intercalate "\n"
        (cssTags
          ++ [generate_script_tag (generate_production_server_url cfg e.file)
              (dictMerge [("type", "module"), ("crossorigin", "")] kwargs)]
          ++ files.map (fun f => generate_preload_tag (urljoin cfg.staticUrl f)
              [("type", "text/javascript"), ("crossorigin", "anonymous"),
               ("rel", "modulepreload"), ("as", "script")])))) := by
  have hpre := preloadImports_eq m cfg
    [("type", "text/javascript"), ("crossorigin", "anonymous"),
     ("rel", "modulepreload"), ("as", "script")] (e.imports.getD []) files hfiles
  simp only [generate_vite_asset, hdev, Bool.false_eq_true, if_false, hg,
    Option.getD_some, hcss, hpre]

/-- Witness for C5 amended at the hashed-storage fixture: script src routed
through the storage, import preload href not. -/
theorem C5_witness :
    generate_vite_asset hashedCfg (some importManifest) 2 "parent" [] =
      some (.ok (String.intercalate "\n"
        (([] : List String)
          ++ [generate_script_tag (generate_production_server_url hashedCfg "assets/parent.js")
              (dictMerge [("type", "module"), ("crossorigin", "")] [])]
          ++ ["assets/dep.js"].map (fun f => generate_preload_tag (urljoin hashedCfg.staticUrl f)
              [("type", "text/javascript"), ("crossorigin", "anonymous"),
               ("rel", "modulepreload"), ("as", "script")])))) :=
  C5_amended hashedCfg importManifest 2 "parent" []
    ⟨"assets/parent.js", some ["dep"], none⟩ ["assets/dep.js"] [] [] rfl rfl rfl rfl

/-- **C7**: caller-supplied attributes take precedence over defaults in the
merged attribute dict used for every rendered tag: whatever key the caller
binds keeps the caller's value, and each operation renders its tag with
exactly that merged dict — in dev mode, in production mode, and in the
legacy-asset and polyfills operations. -/
theorem C7_attrs_override (cfg : ViteConfig) (mst : Option Manifest) (m : Manifest)
    (fuel : Nat) (path kk : String) (kwargs : List (String × String))
    (k v : String) (e : ManifestEntry) (cssTags apFinal preloadTags : List String)
    (hkv : List.lookup k kwargs = some v) :
    (∀ defaults, List.lookup k (dictMerge defaults kwargs) = some v)
    ∧ (cfg.devMode = true →
        generate_vite_asset cfg mst fuel path kwargs =
          some (.ok (generate_script_tag (generate_vite_server_url cfg path)
            (dictMerge [("type", "module")] kwargs))))
    ∧ (cfg.devMode = false → guardLookup mst path = some e →
        load_css_files_of_asset (mst.getD []) cfg fuel path [] = some (.ok (cssTags, apFinal)) →
        preloadImports (mst.getD []) cfg
          [("type", "text/javascript"), ("crossorigin", "anonymous"),
           ("rel", "modulepreload"), ("as", "script")] (e.imports.getD []) = .ok preloadTags →
        generate_vite_asset cfg mst fuel path kwargs =
          some (.ok (String.intercalate "\n"
            (cssTags ++ [generate_script_tag (generate_production_server_url cfg e.file)
                (dictMerge [("type", "module"), ("crossorigin", "")] kwargs)]
              ++ preloadTags))))
    ∧ (cfg.devMode = false → guardLookup mst path = some e →
        generate_vite_legacy_asset cfg mst path kwargs =
          .ok (generate_script_tag (generate_production_server_url cfg e.file)
            (dictMerge [("nomodule", ""), ("crossorigin", "")] kwargs)))
    ∧ (cfg.devMode = false →
        m.find? (fun p => strHasSub p.1 cfg.legacyPolyfillsMotif) = some (kk, e) →
        generate_vite_legacy_polyfills cfg (some m) kwargs =
          .ok (generate_script_tag (generate_production_server_url cfg e.file)
            (dictMerge [("nomodule", ""), ("crossorigin", "")] kwargs))) := by
  refine ⟨fun defaults => dictMerge_lookup_right hkv, ?_, ?_, ?_, ?_⟩
  · intro hdev
    simp only [generate_vite_asset, hdev, eq_self_iff_true, if_true]
  · intro hdev hg hcss hpre
    simp only [generate_vite_asset, hdev, Bool.false_eq_true, if_false, hg, hcss, hpre]
  · intro hdev hg
    simp only [generate_vite_legacy_asset, hdev, Bool.false_eq_true, if_false, hg]
  · intro hdev hfind
    simp only [generate_vite_legacy_polyfills, hdev, Bool.false_eq_true, if_false,
      Option.getD_some, hfind]

/-- Witness for C7: a caller-supplied `nomodule` overrides the default in
the legacy tag, keeping the default's position, and the merged-dict lookup
returns the caller's value. -/
theorem C7_witness :
    (∀ defaults, List.lookup "nomodule"
      (dictMerge defaults [("data-x", "1"), ("nomodule", "nope")]) = some "nope")
    ∧ (exampleCfg.devMode = false → guardLookup (some exampleManifest) "parent" =
        some ⟨"parent.js", some ["A", "B"], none⟩ →
        generate_vite_legacy_asset exampleCfg (some exampleManifest) "parent"
            [("data-x", "1"), ("nomodule", "nope")] =
          .ok (generate_script_tag
            (generate_production_server_url exampleCfg "parent.js")
            (dictMerge [("nomodule", ""), ("crossorigin", "")]
              [("data-x", "1"), ("nomodule", "nope")]))) := by
  have h := C7_attrs_override exampleCfg (some exampleManifest) exampleManifest 2
    "parent" "" [("data-x", "1"), ("nomodule", "nope")] "nomodule" "nope"
    ⟨"parent.js", some ["A", "B"], none⟩ [] [] [] rfl
  exact ⟨h.1, fun _ hg => h.2.2.2.1 rfl hg⟩

/-- **C8**: when the import graph admits a rank function decreasing along
`imports` edges (acyclicity) and every reachable key is present, the walker
terminates successfully on any fuel above the entry's rank; and the
precondition is required — on a self-importing manifest the walker diverges
(no fuel is ever enough), since it tracks visited CSS paths, not nodes. -/
theorem C8_termination (m : Manifest) (cfg : ViteConfig) (tg : String → String)
    (rank : String → Nat) (path : String) (fuel : Nat) (ap : List String)
    (hm : ∀ p ∈ m, ∀ i ∈ p.2.imports.getD [],
      (List.lookup i m).isSome ∧ rank i < rank p.1)
    (hpath : (List.lookup path m).isSome) (hfuel : rank path < fuel) :
    (∃ r, generate_css_files_of_asset m cfg tg fuel path ap = some (.ok r))
    ∧ (∀ fuel2 ap2, generate_css_files_of_asset cycManifest cfg tg fuel2 "a" ap2 = none) :=
  ⟨genCss_total m cfg tg rank hm fuel path ap hpath hfuel,
    fun fuel2 ap2 => genCss_cyc cfg tg fuel2 ap2⟩

/-- Witness for C8: the example manifest is ranked (hence the walk at fuel 2
succeeds), while the cyclic manifest returns `none` at every fuel. -/
theorem C8_witness :
    (∃ r, generate_css_files_of_asset exampleManifest exampleCfg (fun s => s) 2 "parent" [] =
      some (.ok r))
    ∧ (∀ fuel2 ap2, generate_css_files_of_asset cycManifest exampleCfg (fun s => s)
        fuel2 "a" ap2 = none) :=
  C8_termination exampleManifest exampleCfg (fun s => s)
    (fun k => if k == "parent" then 1 else 0) "parent" 2 []
    (by decide) (by decide) (by decide)

/-- **C9**: `generate_vite_legacy_polyfills` returns the empty string in dev
mode; in production it fails with `PolyfillsNotFound` when no manifest key
contains the motif, and renders exactly one `nomodule` script tag at the
entry's resolved production URL when exactly one key matches. -/
theorem C9_legacy_polyfills (cfg : ViteConfig) (m : Manifest) (kk : String)
    (e : ManifestEntry) (kwargs : List (String × String)) :
    (cfg.devMode = true → ∀ mst, generate_vite_legacy_polyfills cfg mst kwargs = .ok "")
    ∧ (cfg.devMode = false →
        (∀ p ∈ m, strHasSub p.1 cfg.legacyPolyfillsMotif = false) →
        generate_vite_legacy_polyfills cfg (some m) kwargs = .error .polyfillsNotFound)
    ∧ (cfg.devMode = false →
        m.filter (fun p => strHasSub p.1 cfg.legacyPolyfillsMotif) = [(kk, e)] →
        generate_vite_legacy_polyfills cfg (some m) kwargs =
          .ok (generate_script_tag (generate_production_server_url cfg e.file)
            (dictMerge [("nomodule", ""), ("crossorigin", "")] kwargs))) := by
  refine ⟨?_, ?_, ?_⟩
  · intro hdev mst
    simp only [generate_vite_legacy_polyfills, hdev, eq_self_iff_true, if_true]
  · intro hdev hnone
    have hfind : m.find? (fun p => strHasSub p.1 cfg.legacyPolyfillsMotif) = none :=
      List.find?_eq_none.mpr (fun x hx => by simp [hnone x hx])
    simp only [generate_vite_legacy_polyfills, hdev, Bool.false_eq_true, if_false,
      Option.getD_some, hfind]
  · intro hdev huniq
    have hfind := find?_of_filter_singleton huniq
    simp only [generate_vite_legacy_polyfills, hdev, Bool.false_eq_true, if_false,
      Option.getD_some, hfind]

/-- Witness for C9: dev mode yields the empty string; a motif-free manifest
fails with `PolyfillsNotFound`; a manifest whose single matching key is
`vite/legacy-polyfills` renders its `nomodule` script tag. -/
theorem C9_witness :
    (exampleDevCfg.devMode = true → ∀ mst,
      generate_vite_legacy_polyfills exampleDevCfg mst [] = .ok "")
    ∧ (exampleCfg.devMode = false →
        generate_vite_legacy_polyfills exampleCfg (some exampleManifest) [] =
          .error .polyfillsNotFound)
    ∧ (exampleCfg.devMode = false →
        generate_vite_legacy_polyfills exampleCfg
            (some [("vite/legacy-polyfills", ⟨"polyfills.js", none, none⟩)]) [] =
          .ok (generate_script_tag
            (generate_production_server_url exampleCfg "polyfills.js")
            (dictMerge [("nomodule", ""), ("crossorigin", "")] []))) := by
  refine ⟨?_, ?_, ?_⟩
  · exact (C9_legacy_polyfills exampleDevCfg [] "" ⟨"", none, none⟩ []).1
  · intro h
    exact (C9_legacy_polyfills exampleCfg exampleManifest "" ⟨"", none, none⟩ []).2.1 h
      (by decide)
  · intro h
    exact (C9_legacy_polyfills exampleCfg
      [("vite/legacy-polyfills", ⟨"polyfills.js", none, none⟩)]
      "vite/legacy-polyfills" ⟨"polyfills.js", none, none⟩ []).2.2 h (by decide)

/-- **C10**: a successfully parsed but empty manifest is falsy, so the guard
raises `UnknownAsset` in all four path-taking production operations for
every path — identically to a missing key. -/
theorem C10_empty_manifest (cfg : ViteConfig) (fuel : Nat) (path : String)
    (kwargs : List (String × String)) (hdev : cfg.devMode = false) :
    generate_vite_asset cfg (some []) fuel path kwargs = some (.error (.unknownAsset path))
    ∧ preload_vite_asset cfg (some []) fuel path = some (.error (.unknownAsset path))
    ∧ generate_vite_asset_url cfg (some []) path = .error (.unknownAsset path)
    ∧ generate_vite_legacy_asset cfg (some []) path kwargs = .error (.unknownAsset path) := by
  have hg : guardLookup (some ([] : Manifest)) path = none := rfl
  refine ⟨?_, ?_, ?_, ?_⟩
  · simp only [generate_vite_asset, hdev, Bool.false_eq_true, if_false, hg]
  · simp only [preload_vite_asset, hdev, Bool.false_eq_true, if_false, hg]
  · simp only [generate_vite_asset_url, hdev, Bool.false_eq_true, if_false, hg]
  · simp only [generate_vite_legacy_asset, hdev, Bool.false_eq_true, if_false, hg]

/-- Witness for C10 at a concrete path against the empty manifest. -/
theorem C10_witness :
    generate_vite_asset exampleCfg (some []) 1 "src/main.js" [] =
      some (.error (.unknownAsset "src/main.js"))
    ∧ preload_vite_asset exampleCfg (some []) 1 "src/main.js" =
      some (.error (.unknownAsset "src/main.js"))
    ∧ generate_vite_asset_url exampleCfg (some []) "src/main.js" =
      .error (.unknownAsset "src/main.js")
    ∧ generate_vite_legacy_asset exampleCfg (some []) "src/main.js" [] =
      .error (.unknownAsset "src/main.js") :=
  C10_empty_manifest exampleCfg 1 "src/main.js" [] rfl

/-- **C6 counterexample**: in development mode with the default static URL
`/static/`, the script src for `src/main.js` is
`http://localhost:3000/static/src/main.js`: the static URL is inserted
between the dev-server origin and the path, so the rendered tag is not the
claimed `{origin}/{path}` one. -/
theorem C6_counterexample :
    generate_vite_asset exampleDevCfg none 0 "src/main.js" [] =
      some (.ok (generate_script_tag "http://localhost:3000/static/src/main.js"
        [("type", "module")]))
    ∧ generate_vite_asset exampleDevCfg none 0 "src/main.js" [] ≠
      some (.ok (generate_script_tag "http://localhost:3000/src/main.js"
        [("type", "module")])) := by
  refine ⟨rfl, ?_⟩
  intro h
  rw [(rfl : generate_vite_asset exampleDevCfg none 0 "src/main.js" [] =
    some (.ok (generate_script_tag "http://localhost:3000/static/src/main.js"
      [("type", "module")])))] at h
  injection h with h
  injection h with h
  exact absurd h (by decide)

/-- **C6 amended**: in development mode `resolve_asset` returns a single
script tag whose src is the dev-server origin followed by
`urljoin(DJANGO_VITE_STATIC_URL, path)` — the static URL is interposed
between origin and path; the src equals `{origin}/{path}` exactly in the
special case where the static URL is the bare root `/` (and the path is a
nonempty relative path). -/
theorem C6_amended (cfg : ViteConfig) (mst : Option Manifest) (fuel : Nat)
    (path : String) (kwargs : List (String × String)) (t0 : List Char)
    (hdev : cfg.devMode = true)
    (hp : ':' ∉ cfg.devServerProtocol.toList)
    (hn : '/' ∉ cfg.devServerHost.toList ++ ':' :: cfg.devServerPort.toList)
    (hsu : cfg.staticUrl.toList = '/' :: t0)
    (hc1 : ':' ∉ cfg.staticUrl.toList) (hc2 : ':' ∉ path.toList) :
    generate_vite_asset cfg mst fuel path kwargs =
      some (.ok (generate_script_tag (devOrigin cfg ++ urljoin cfg.staticUrl path)
        (dictMerge [("type", "module")] kwargs)))
    ∧ (cfg.staticUrl = "/" → path ≠ "" → strStartsWith path "/" = false →
        generate_vite_asset cfg mst fuel path kwargs =
          some (.ok (generate_script_tag (devOrigin cfg ++ "/" ++ path)
            (dictMerge [("type", "module")] kwargs)))) := by
  obtain ⟨⟨t, ht⟩, hcIn⟩ := innerJoin_props cfg.staticUrl path t0 hsu hc1 hc2
  have hinner_ne : urljoin cfg.staticUrl path ≠ "" := by
    intro h0
    rw [h0] at ht
    exact List.noConfusion (show ([] : List Char) = '/' :: t from ht)
  have hstart : strStartsWith (urljoin cfg.staticUrl path) "/" = true :=
    strStartsWith_cons ht
  have hbsplit := splitSchemeNetloc_devOrigin cfg hp hn
  have husplit : splitSchemeNetloc (urljoin cfg.staticUrl path) = none :=
    splitSchemeNetloc_none hcIn
  have hurl : generate_vite_server_url cfg path
      = devOrigin cfg ++ urljoin cfg.staticUrl path := by
    rw [generate_vite_server_url]
    exact urljoin_origin_abs hbsplit husplit hstart hinner_ne
  constructor
  · simp only [generate_vite_asset, hdev, eq_self_iff_true, if_true, hurl]
  · intro hroot hne hrel
    have hinner : urljoin cfg.staticUrl path = "/" ++ path := by
      have hb2 : splitSchemeNetloc "/" = none := rfl
      have hu2 := splitSchemeNetloc_none hc2
      rw [hroot, urljoin_rel_noscheme hb2 hu2 hne hrel]
      rfl
    simp only [generate_vite_asset, hdev, eq_self_iff_true, if_true, hurl, hinner]
    rw [strAppend_assoc]

/-- Witness for C6 amended against a dev config whose static URL is `/`:
the src is the origin joined with `urljoin("/", path)`, and since the
static URL is the bare root it equals `{origin}/{path}`. -/
theorem C6_witness :
    (generate_vite_asset rootCfg none 0 "src/main.js" [] =
      some (.ok (generate_script_tag (devOrigin rootCfg ++ urljoin rootCfg.staticUrl "src/main.js")
        (dictMerge [("type", "module")] []))))
    ∧ (rootCfg.staticUrl = "/" → "src/main.js" ≠ "" →
        strStartsWith "src/main.js" "/" = false →
        generate_vite_asset rootCfg none 0 "src/main.js" [] =
          some (.ok (generate_script_tag (devOrigin rootCfg ++ "/" ++ "src/main.js")
            (dictMerge [("type", "module")] [])))) :=
  C6_amended rootCfg none 0 "src/main.js" [] [] rfl (by decide) (by decide) rfl
    (by decide) (by decide)
